import Mathlib

/-!
# MineMoniter: registry, polling tick and chart window of `src/bot.js`

A shallow embedding of the stateful core of the bot.

Modelling conventions.
* `serverList`, `playerData` and the objects nested in them are plain JavaScript
  objects (made by `{}` or by `JSON.parse`), so their prototype is
  `Object.prototype`.  A `Dict` holds the own properties of such an object.  A
  read `o[k]` that finds no own property continues on `Object.prototype`: it
  yields the inherited member when `k` is one of `objectPrototypeMembers`, and
  `undefined` otherwise.  A write `o[k] = v` makes an own property, except that
  `o["__proto__"] = v` with a string `v` runs the inherited setter, which ignores
  it.
* The inherited members are shared by every object.  `updatePlayerData` can write
  on one of the inherited functions; these writes are kept in
  `Store.memberData`.
* Truthiness tests of the source are kept: an object or function is always
  truthy, a string is truthy iff it is not empty, a number is truthy iff it is
  not zero.
* Time values are integers (milliseconds since the epoch).  The text produced by
  `toISOString().split('T')[0]` is represented by the UTC day number it denotes;
  `toISOString` throws a `RangeError` on an invalid date, which is kept.
* `util.status` and the clock are oracles handed to the polling tick.
* The registry is the one that the registration step builds, and guild ids are
  those of the chat platform: the types `GuildId`, `TargetName` and `Address`
  say what that excludes.  A `serverList.json` edited by hand to hold other keys
  or values is outside the model.
-/

namespace MineMonitor

/-! ## Dictionaries (JavaScript objects with own properties) -/

/-- Property read on the list of own properties: first entry with the key. -/
def assocGet {κ α : Type} [DecidableEq κ] : List (κ × α) → κ → Option α
  | [], _ => none
  | (k', v) :: t, k => if k' = k then some v else assocGet t k

/-- Property write on the list of own properties: an existing property keeps its
place, a new one is appended.  (JavaScript enumerates integer-like keys first;
no statement below depends on the enumeration order.) -/
def assocSet {κ α : Type} [DecidableEq κ] : List (κ × α) → κ → α → List (κ × α)
  | [], k, v => [(k, v)]
  | (k', v') :: t, k, v => if k' = k then (k', v) :: t else (k', v') :: assocSet t k v

/-- A JavaScript object: its own properties, no key twice. -/
structure Dict (κ α : Type) where
  entries : List (κ × α)
  nodup : (entries.map Prod.fst).Nodup

namespace Dict

/-- The object literal with no property. -/
def empty {κ α : Type} : Dict κ α := ⟨[], List.nodup_nil⟩

/-- Reading `o[k]`; `none` is `undefined`. -/
def get? {κ α : Type} [DecidableEq κ] (o : Dict κ α) (k : κ) : Option α :=
  assocGet o.entries k

/-- Writing `o[k] = v`. -/
def set {κ α : Type} [DecidableEq κ] (o : Dict κ α) (k : κ) (v : α) : Dict κ α :=
  ⟨assocSet o.entries k v, by
    have hmem : ∀ (l : List (κ × α)) (a : κ),
        a ∈ (assocSet l k v).map Prod.fst → a = k ∨ a ∈ l.map Prod.fst := by
      intro l
      induction l with
      | nil => intro a ha; simpa [assocSet] using ha
      | cons e t ih =>
        intro a ha
        obtain ⟨k', v'⟩ := e
        by_cases hk : k' = k
        · simp only [assocSet, hk, if_true, List.map_cons, List.mem_cons] at ha
          simp only [List.map_cons, List.mem_cons, hk]
          tauto
        · simp only [assocSet, hk, if_false, List.map_cons, List.mem_cons] at ha
          simp only [List.map_cons, List.mem_cons]
          rcases ha with ha | ha
          · exact Or.inr (Or.inl ha)
          · rcases ih a ha with h | h
            · exact Or.inl h
            · exact Or.inr (Or.inr h)
    have hnd : ∀ l : List (κ × α), (l.map Prod.fst).Nodup →
        ((assocSet l k v).map Prod.fst).Nodup := by
      intro l
      induction l with
      | nil => intro _; simp [assocSet]
      | cons e t ih =>
        intro h
        obtain ⟨k', v'⟩ := e
        simp only [List.map_cons, List.nodup_cons] at h
        by_cases hk : k' = k
        · simp only [assocSet, hk, if_true, List.map_cons, List.nodup_cons]
          exact ⟨hk ▸ h.1, h.2⟩
        · simp only [assocSet, hk, if_false, List.map_cons, List.nodup_cons]
          refine ⟨fun hin => ?_, ih h.2⟩
          rcases hmem t k' hin with h' | h'
          · exact hk h'
          · exact h.1 h'
    exact hnd o.entries o.nodup⟩

end Dict

/-! ## Keys and values -/

/-- The names of the own properties of `Object.prototype`: eleven functions and
the accessor `__proto__`.  Every plain object inherits them. -/
def objectPrototypeMembers : List String :=
  ["constructor", "__defineGetter__", "__defineSetter__", "hasOwnProperty",
    "__lookupGetter__", "__lookupSetter__", "isPrototypeOf", "propertyIsEnumerable",
    "toString", "valueOf", "__proto__", "toLocaleString"]

/-- A guild id is `message.guild.id`, which the chat platform issues (a string of
decimal digits); it never is the name of a member of `Object.prototype`. -/
abbrev GuildId := {s : String // s ∉ objectPrototypeMembers}

/-- The nickname of a polled target: an own key of a guild's object in
`serverList`, as `Object.entries` lists it.  The registration step can not create
the own key `__proto__` (see `handleAddServer`), so no target bears that name and
`updatePlayerData`, which the tick calls with such keys only, never receives it. -/
abbrev TargetName := {s : String // s ≠ "__proto__"}

/-- A server address as `handleAddServer` receives it: a token of
`message.content...trim().split(/ +/)`, hence not empty. -/
abbrev Address := {s : String // s ≠ ""}

/-- The values that a read of `serverList[guildId][key]` can yield:
a string, or the member `key` inherited from `Object.prototype` (a function, or
`Object.prototype` itself for `__proto__`). -/
inductive JSValue where
  | str (s : String)
  | inherited (member : String)
  deriving DecidableEq, Repr

/-- Truthiness of a value. -/
def JSValue.truthy : JSValue → Bool
  | .str s => decide (s ≠ "")
  | .inherited _ => true

/-! ## Registry (`serverList`) -/

/-- The global `serverList`: guild id, then nickname, then address. -/
abbrev ServerList := Dict GuildId (Dict TargetName Address)

/-- The own property `key` of a guild's object in `serverList`. -/
def ownAddress (guildServers : Dict TargetName Address) (key : String) : Option Address :=
  if h : key ≠ "__proto__" then guildServers.get? ⟨key, h⟩ else none

/-- The read `guildServers[key]`: the own property, else the member inherited
from `Object.prototype`, else `undefined` (`none`). -/
def readAddress (guildServers : Dict TargetName Address) (key : String) : Option JSValue :=
  match ownAddress guildServers key with
  | some ip => some (.str ip.val)
  | none => if key ∈ objectPrototypeMembers then some (.inherited key) else none

/-- The address that the registry holds under `(guildId, nickname)`, when there
is one. -/
def registered (serverList : ServerList) (guildId : GuildId) (nickname : String) :
    Option Address :=
  (serverList.get? guildId).bind (fun guildServers => ownAddress guildServers nickname)

/-- The expression
`serverList[guildId] && serverList[guildId][serverIP] ? serverList[guildId][serverIP] : serverIP`
of `handleStatus`, `handlePlayers`, `handleMultiStatus` and `handleServerInfo`. -/
def actualIP (serverList : ServerList) (guildId : GuildId) (serverIP : String) : JSValue :=
  match serverList.get? guildId with
  | none => .str serverIP
  | some guildServers =>
    match readAddress guildServers serverIP with
    | none => .str serverIP
    | some v => if v.truthy then v else .str serverIP

/-- The registration step of `handleAddServer` (lines 182 to 186): the guild's
object, a fresh `{}` when `serverList[guildId]` is missing, receives the address
under the nickname.  For the nickname `__proto__` the assignment runs the setter
inherited from `Object.prototype`, which ignores a string: nothing is stored. -/
def handleAddServer (serverList : ServerList) (guildId : GuildId) (nickname : String)
    (ip : Address) : ServerList :=
  let guildServers : Dict TargetName Address :=
    match serverList.get? guildId with
    | none => Dict.empty
    | some guildServers => guildServers
  if h : nickname ≠ "__proto__" then
    serverList.set guildId (guildServers.set ⟨nickname, h⟩ ip)
  else
    serverList.set guildId guildServers

/-! ## Time values and calendar dates -/

/-- The constant `24 * 60 * 60 * 1000` of `handleGraph`. -/
def msPerDay : Int := 24 * 60 * 60 * 1000

/-- Largest magnitude of a time value a `Date` can hold (ECMAScript time clip). -/
def maxTimeValue : Int := 8640000000000000

/-- Whether `new Date(t)` is a valid date. -/
def validTime (t : Int) : Prop := -maxTimeValue ≤ t ∧ t ≤ maxTimeValue

instance (t : Int) : Decidable (validTime t) := by
  unfold validTime; exact inferInstance

/-- The UTC calendar date of a valid time value, as a day number
(day 0 is 1970-01-01); it stands for the text `YYYY-MM-DD`. -/
def utcDay (t : Int) : Int := t / msPerDay

/-- Exceptions thrown by the modelled code. -/
inductive JSError where
  | rangeError
  deriving DecidableEq, Repr

/-- The expression `new Date(t).toISOString().split('T')[0]`: the calendar date of
`t`, or `RangeError: Invalid time value` when `t` is outside the range of `Date`. -/
def toISODate (t : Int) : Except JSError Int :=
  if validTime t then .ok (utcDay t) else .error .rangeError

/-! ## Time-series store (`playerData`) -/

/-- The date-keyed properties of one object: calendar date to online count. -/
abbrev Series := Dict Int Nat

/-- The global `playerData` (guild id, then nickname, then calendar date),
together with the date-keyed properties that `updatePlayerData` has written on
the functions inherited from `Object.prototype` (`memberData`, by member name). -/
structure Store where
  playerData : Dict GuildId (Dict String Series)
  memberData : Dict String Series

/-- The store at start-up with no file: `playerData = {}`, nothing written on an
inherited member. -/
def Store.empty : Store := ⟨Dict.empty, Dict.empty⟩

/-- What a read of `playerData[guildId][nickname]` can yield when it is defined:
an own object of the guild, or the member inherited from `Object.prototype`. -/
inductive SeriesRef where
  | own (data : Series)
  | inherited (member : String)

/-- The read `guildData[nickname]` on a guild's object in `playerData`: the own
property, else the member inherited from `Object.prototype`, else `undefined`. -/
def seriesAt (guildData : Dict String Series) (nickname : String) : Option SeriesRef :=
  match guildData.get? nickname with
  | some data => some (.own data)
  | none => if nickname ∈ objectPrototypeMembers then some (.inherited nickname) else none

/-- The read `playerData[guildId][nickname]`; `none` when either level is
`undefined`. -/
def readSeries (store : Store) (guildId : GuildId) (nickname : String) : Option SeriesRef :=
  (store.playerData.get? guildId).bind (fun guildData => seriesAt guildData nickname)

/-- The date-keyed properties that a read finds on the object: those of an own
object, those written on an inherited function; `Object.prototype` itself
(member `__proto__`) has none. -/
def dateProps (store : Store) : SeriesRef → Series
  | .own data => data
  | .inherited member =>
    if member = "__proto__" then Dict.empty
    else
      match store.memberData.get? member with
      | none => Dict.empty
      | some data => data

/-- The own object `playerData[guildId][nickname]`, when both levels hold an own
property. -/
def seriesOf (store : Store) (guildId : GuildId) (nickname : String) : Option Series :=
  (store.playerData.get? guildId).bind (fun guildData => guildData.get? nickname)

/-- The read `playerData[guildId][nickname][date]`: the sample that the code
finds under `(guildId, nickname, date)`, when there is one. -/
def sample (store : Store) (guildId : GuildId) (nickname : String) (date : Int) : Option Nat :=
  (readSeries store guildId nickname).bind (fun ref => (dateProps store ref).get? date)

/-- All the values held for `date` among the properties of the object that
`playerData[guildId][nickname]` yields. -/
def samplesOn (store : Store) (guildId : GuildId) (nickname : String) (date : Int) : List Nat :=
  match readSeries store guildId nickname with
  | none => []
  | some ref => ((dateProps store ref).entries.filter (fun e => decide (e.1 = date))).map Prod.snd

/-- The function `updatePlayerData`, called when the clock reads `now`
(`new Date()` is the current time, always a valid date).  The guild's object is
a fresh `{}` when missing.  When `playerData[guildId][nickname]` is an own
object the count is written on it; when the nickname names a function inherited
from `Object.prototype` the test of line 375 finds it truthy, no object is
created and the count is written on that shared function; otherwise a fresh `{}`
is stored under the nickname and receives the count. -/
def updatePlayerData (store : Store) (now : Int) (guildId : GuildId) (nickname : TargetName)
    (onlinePlayers : Nat) : Store :=
  let guildData : Dict String Series :=
    match store.playerData.get? guildId with
    | none => Dict.empty
    | some guildData => guildData
  let date := utcDay now
  match guildData.get? nickname.val with
  | some data =>
    ⟨store.playerData.set guildId (guildData.set nickname.val (data.set date onlinePlayers)),
      store.memberData⟩
  | none =>
    if nickname.val ∈ objectPrototypeMembers then
      ⟨store.playerData.set guildId guildData,
        store.memberData.set nickname.val
          ((dateProps store (.inherited nickname.val)).set date onlinePlayers)⟩
    else
      ⟨store.playerData.set guildId
          (guildData.set nickname.val ((Dict.empty : Series).set date onlinePlayers)),
        store.memberData⟩

/-! ## Chart window (`handleGraph`) -/

/-- What `handleGraph` sends back. -/
inductive Reply where
  | noPlayerData
  | chart (labels : List Int) (playerCounts : List Nat)
  deriving DecidableEq, Repr

/-- The expression `data[dateString] || 0`. -/
def countOrZero (data : Series) (dateString : Int) : Nat :=
  match data.get? dateString with
  | none => 0
  | some c => if c ≠ 0 then c else 0

/-- The loop `for (let i = days - 1; i >= 0; i--)` of `handleGraph`, over the
date-keyed properties of `data`; the natural number argument is `i + 1`, so `0`
means that `i >= 0` fails. -/
def graphLoop (data : Series) (now : Int) :
    Nat → List Int → List Nat → Except JSError (List Int × List Nat)
  | 0, labels, playerCounts => .ok (labels, playerCounts)
  | i + 1, labels, playerCounts =>
    match toISODate (now - (i : Int) * msPerDay) with
    | .error e => .error e
    | .ok dateString =>
      graphLoop data now i (labels ++ [dateString]) (playerCounts ++ [countOrZero data dateString])

/-- The function `handleGraph` from line 329 on, with `days` the value of
`parseInt(args[1])` and `now` the value of `Date.now()`.  A `days` that is not a
number skips the loop exactly as a non-positive one does. -/
def handleGraph (store : Store) (now : Int) (guildId : GuildId) (nickname : String)
    (days : Int) : Except JSError Reply :=
  match store.playerData.get? guildId with
  | none => .ok .noPlayerData
  | some guildData =>
    match seriesAt guildData nickname with
    | none => .ok .noPlayerData
    | some data =>
      match graphLoop (dateProps store data) now days.toNat [] [] with
      | .error e => .error e
      | .ok (labels, playerCounts) => .ok (.chart labels playerCounts)

/-! ## Polling tick (the job scheduled by `startPeriodicChecks`) -/

/-- What one firing of the job observes from outside: the outcome of
`util.status(ip)` for each target (`some online` when it resolves with
`result.players.online = online`, `none` when it throws) and the clock reading
at the moment the target's sample is written. -/
structure TickEnv where
  status : GuildId → TargetName → Address → Option Nat
  clock : GuildId → TargetName → Int

/-- The body of the inner loop: the `try`/`catch` around one target.
`checkServerStatus` has an empty body. -/
def pollTarget (env : TickEnv) (guildId : GuildId) (store : Store)
    (target : TargetName × Address) : Store :=
  match env.status guildId target.1 target.2 with
  | some online => updatePlayerData store (env.clock guildId target.1) guildId target.1 online
  | none => store

/-- The inner loop `for (const [nickname, ip] of Object.entries(guildServers))`. -/
def pollGuild (env : TickEnv) (store : Store)
    (guild : GuildId × Dict TargetName Address) : Store :=
  guild.2.entries.foldl (pollTarget env guild.1) store

/-- One tick: the callback passed to `schedule.scheduleJob`, as a map on the
store. -/
def startPeriodicChecks (env : TickEnv) (serverList : ServerList) (store : Store) : Store :=
  serverList.entries.foldl (pollGuild env) store

/-- A tick together with the registry it runs over. -/
structure Tick where
  serverList : ServerList
  env : TickEnv

/-- A sequence of ticks, oldest first. -/
def runTicks (ticks : List Tick) (store : Store) : Store :=
  ticks.foldl (fun s t => startPeriodicChecks t.env t.serverList s) store

/-- One call of `updatePlayerData` with the clock reading at that moment. -/
structure Update where
  now : Int
  guildId : GuildId
  nickname : TargetName
  onlinePlayers : Nat

/-- A sequence of `updatePlayerData` calls, oldest first. -/
def runUpdates (updates : List Update) (store : Store) : Store :=
  updates.foldl (fun s u => updatePlayerData s u.now u.guildId u.nickname u.onlinePlayers)
    store

/-- The `k` consecutive calendar dates that end with `today`, oldest first. -/
def windowDates (today : Int) : Nat → List Int
  | 0 => []
  | i + 1 => (today - (i : Int)) :: windowDates today i

/-! ## Concrete data used to evaluate the definitions -/

/-- The guild of the end-to-end scenario. -/
def guild1 : GuildId := ⟨"guild1", by decide⟩

/-- A second guild. -/
def guild2 : GuildId := ⟨"guild2", by decide⟩

/-- The nickname `alpha`. -/
def alpha : TargetName := ⟨"alpha", by decide⟩

/-- The nickname `beta`. -/
def beta : TargetName := ⟨"beta", by decide⟩

/-- The nickname `gamma`. -/
def gamma : TargetName := ⟨"gamma", by decide⟩

/-- The nickname `constructor`, which also names a member of `Object.prototype`;
`!addserver constructor <ip>` registers it. -/
def constructorName : TargetName := ⟨"constructor", by decide⟩

/-- The address `play.example.com:25565`. -/
def exampleAddress : Address := ⟨"play.example.com:25565", by decide⟩

/-- The address `mc.example.org`. -/
def otherAddress : Address := ⟨"mc.example.org", by decide⟩

/-- The registry of the end-to-end scenario: `("guild1", "alpha")` registered. -/
def registryAlpha : ServerList :=
  handleAddServer Dict.empty guild1 "alpha" exampleAddress

/-- A registry with three targets in two guilds. -/
def registryThree : ServerList :=
  handleAddServer (handleAddServer registryAlpha guild1 "beta" otherAddress)
    guild2 "gamma" otherAddress

/-- The registry after `!addserver constructor play.example.com:25565` in
`guild1` and `!addserver constructor mc.example.org` in `guild2`. -/
def registryConstructors : ServerList :=
  handleAddServer (handleAddServer Dict.empty guild1 "constructor" exampleAddress)
    guild2 "constructor" otherAddress

/-- The registry after `!addserver constructor play.example.com:25565` in
`guild1` and `!addserver gamma mc.example.org` in `guild2`. -/
def registryConstructorGamma : ServerList :=
  handleAddServer (handleAddServer Dict.empty guild1 "constructor" exampleAddress)
    guild2 "gamma" otherAddress

/-- The store after one successful poll of `("guild1", "alpha")` reporting 7
players at time 1700000000000 (2023-11-14, day 19675). -/
def storeAlpha7 : Store :=
  updatePlayerData Store.empty 1700000000000 guild1 alpha 7

/-- The store after one successful poll of `("guild2", "gamma")` reporting 7
players at time 1700000000000. -/
def storeGamma7 : Store :=
  updatePlayerData Store.empty 1700000000000 guild2 gamma 7

/-- A tick at time 1700000000000 in which only the targets nicknamed `beta`
answer, with 12 players online; every other query fails. -/
def envBetaOnly : TickEnv :=
  ⟨fun _ nickname _ => if nickname = beta then some 12 else none, fun _ _ => 1700000000000⟩

/-- A tick at time 1700000000000 in which every query answers 7 players. -/
def envAllSeven : TickEnv :=
  ⟨fun _ _ _ => some 7, fun _ _ => 1700000000000⟩

/-- A tick at time 1700000000000 in which the targets of `guild1` answer 5
players and all the others answer 9. -/
def envFiveNine : TickEnv :=
  ⟨fun guildId _ _ => if guildId = guild1 then some 5 else some 9, fun _ _ => 1700000000000⟩

/-- A tick at time 1700000000000 in which every query fails. -/
def envAllFail : TickEnv :=
  ⟨fun _ _ _ => none, fun _ _ => 1700000000000⟩

/-! ## Dictionary lemmas -/

theorem assocGet_assocSet_self {κ α : Type} [DecidableEq κ] (l : List (κ × α)) (k : κ) (v : α) :
    assocGet (assocSet l k v) k = some v := by
  induction l with
  | nil => simp [assocSet, assocGet]
  | cons e t ih =>
    obtain ⟨k', v'⟩ := e
    by_cases hk : k' = k
    · simp [assocSet, assocGet, hk]
    · simp [assocSet, assocGet, hk, ih]

theorem assocGet_assocSet_of_ne {κ α : Type} [DecidableEq κ] (l : List (κ × α)) (k k₂ : κ)
    (v : α) (h : k₂ ≠ k) : assocGet (assocSet l k v) k₂ = assocGet l k₂ := by
  induction l with
  | nil => simp [assocSet, assocGet, Ne.symm h]
  | cons e t ih =>
    obtain ⟨k', v'⟩ := e
    by_cases hk : k' = k
    · subst hk
      simp [assocSet, assocGet, Ne.symm h]
    · by_cases hk₂ : k' = k₂
      · subst hk₂
        simp [assocSet, assocGet, hk]
      · simp [assocSet, assocGet, hk, hk₂, ih]

theorem Dict.get?_empty {κ α : Type} [DecidableEq κ] (k : κ) :
    (Dict.empty : Dict κ α).get? k = none := rfl

theorem Dict.get?_set_self {κ α : Type} [DecidableEq κ] (o : Dict κ α) (k : κ) (v : α) :
    (o.set k v).get? k = some v :=
  assocGet_assocSet_self o.entries k v

theorem Dict.get?_set_of_ne {κ α : Type} [DecidableEq κ] (o : Dict κ α) (k k₂ : κ) (v : α)
    (h : k₂ ≠ k) : (o.set k v).get? k₂ = o.get? k₂ :=
  assocGet_assocSet_of_ne o.entries k k₂ v h

/-- With distinct keys, the entries are exactly the pairs that `assocGet` finds. -/
theorem mem_iff_assocGet {κ α : Type} [DecidableEq κ] (l : List (κ × α))
    (hnd : (l.map Prod.fst).Nodup) (k : κ) (v : α) :
    (k, v) ∈ l ↔ assocGet l k = some v := by
  induction l with
  | nil => simp [assocGet]
  | cons e t ih =>
    obtain ⟨k', v'⟩ := e
    simp only [List.map_cons, List.nodup_cons] at hnd
    by_cases hk : k' = k
    · subst hk
      have hnot : ∀ w, (k', w) ∉ t := fun w hw => hnd.1 (List.mem_map_of_mem Prod.fst hw)
      simp only [List.mem_cons, Prod.mk.injEq, true_and, assocGet, if_true, Option.some.injEq]
      constructor
      · rintro (h | h)
        · exact h.symm
        · exact absurd h (hnot v)
      · intro h; exact Or.inl h.symm
    · simp only [List.mem_cons, Prod.mk.injEq, assocGet, hk, if_false]
      rw [← ih hnd.2]
      constructor
      · rintro (h | h)
        · exact absurd h.1.symm hk
        · exact h
      · intro h; exact Or.inr h

theorem Dict.mem_entries_iff {κ α : Type} [DecidableEq κ] (o : Dict κ α) (k : κ) (v : α) :
    (k, v) ∈ o.entries ↔ o.get? k = some v :=
  mem_iff_assocGet o.entries o.nodup k v

theorem filter_key_of_assocGet {κ α : Type} [DecidableEq κ] (l : List (κ × α))
    (hnd : (l.map Prod.fst).Nodup) (k : κ) (v : α) (h : assocGet l k = some v) :
    l.filter (fun e => decide (e.1 = k)) = [(k, v)] := by
  induction l with
  | nil => simp [assocGet] at h
  | cons e t ih =>
    obtain ⟨k', v'⟩ := e
    simp only [List.map_cons, List.nodup_cons] at hnd
    by_cases hk : k' = k
    · subst hk
      simp only [assocGet, if_true, Option.some.injEq] at h
      subst h
      have hnone : t.filter (fun e => decide (e.1 = k')) = [] := by
        rw [List.filter_eq_nil_iff]
        intro e he hek
        have : e.1 = k' := by simpa using hek
        exact hnd.1 (this ▸ List.mem_map_of_mem Prod.fst he)
      simp [List.filter_cons, hnone]
    · simp only [assocGet, hk, if_false] at h
      simp [List.filter_cons, hk, ih hnd.2 h]

/-! ## Registry lemmas -/

theorem ownAddress_val (guildServers : Dict TargetName Address) (nickname : TargetName) :
    ownAddress guildServers nickname.val = guildServers.get? nickname := by
  unfold ownAddress
  rw [dif_pos nickname.property]

theorem ownAddress_proto (guildServers : Dict TargetName Address) :
    ownAddress guildServers "__proto__" = none := by
  unfold ownAddress
  rw [dif_neg (by simp)]

theorem ownAddress_set_self (guildServers : Dict TargetName Address) (nickname : String)
    (h : nickname ≠ "__proto__") (ip : Address) :
    ownAddress (guildServers.set ⟨nickname, h⟩ ip) nickname = some ip := by
  unfold ownAddress
  rw [dif_pos h, Dict.get?_set_self]

theorem ownAddress_set_of_ne (guildServers : Dict TargetName Address) (nickname : String)
    (h : nickname ≠ "__proto__") (ip : Address) (key : String) (hkey : key ≠ nickname) :
    ownAddress (guildServers.set ⟨nickname, h⟩ ip) key = ownAddress guildServers key := by
  unfold ownAddress
  by_cases hk : key ≠ "__proto__"
  · rw [dif_pos hk, dif_pos hk]
    exact Dict.get?_set_of_ne _ _ _ _ (fun heq => hkey (congrArg Subtype.val heq))
  · rw [dif_neg hk, dif_neg hk]

theorem ownAddress_empty (key : String) :
    ownAddress (Dict.empty : Dict TargetName Address) key = none := by
  unfold ownAddress
  by_cases hk : key ≠ "__proto__"
  · rw [dif_pos hk]; rfl
  · rw [dif_neg hk]

theorem get?_handleAddServer_of_ne (serverList : ServerList) (guildId : GuildId)
    (nickname : String) (ip : Address) (guildId₂ : GuildId) (hg : guildId₂ ≠ guildId) :
    (handleAddServer serverList guildId nickname ip).get? guildId₂ = serverList.get? guildId₂ := by
  unfold handleAddServer
  by_cases h : nickname ≠ "__proto__"
  · simp only [dif_pos h, Dict.get?_set_of_ne _ _ _ _ hg]
  · simp only [dif_neg h, Dict.get?_set_of_ne _ _ _ _ hg]

theorem registered_handleAddServer_self (serverList : ServerList) (guildId : GuildId)
    (nickname : String) (ip : Address) (h : nickname ≠ "__proto__") :
    registered (handleAddServer serverList guildId nickname ip) guildId nickname = some ip := by
  unfold registered handleAddServer
  simp only [dif_pos h, Dict.get?_set_self, Option.some_bind, ownAddress_set_self]

theorem registered_handleAddServer_of_ne (serverList : ServerList) (guildId : GuildId)
    (nickname : String) (ip : Address) (guildId₂ : GuildId) (nickname₂ : String)
    (h : ¬ (guildId₂ = guildId ∧ nickname₂ = nickname)) :
    registered (handleAddServer serverList guildId nickname ip) guildId₂ nickname₂
      = registered serverList guildId₂ nickname₂ := by
  by_cases hg : guildId₂ = guildId
  · subst hg
    have hn : nickname₂ ≠ nickname := fun hn => h ⟨rfl, hn⟩
    unfold registered handleAddServer
    by_cases hp : nickname ≠ "__proto__"
    · simp only [dif_pos hp, Dict.get?_set_self, Option.some_bind]
      rw [ownAddress_set_of_ne _ _ _ _ _ hn]
      cases serverList.get? guildId₂ with
      | none => simp [ownAddress_empty]
      | some gs => simp
    · simp only [dif_neg hp, Dict.get?_set_self, Option.some_bind]
      cases serverList.get? guildId₂ with
      | none => simp [ownAddress_empty]
      | some gs => simp
  · unfold registered
    rw [get?_handleAddServer_of_ne _ _ _ _ _ hg]

theorem actualIP_of_registered (serverList : ServerList) (guildId : GuildId)
    (serverIP : String) (ip : Address)
    (h : registered serverList guildId serverIP = some ip) :
    actualIP serverList guildId serverIP = .str ip.val := by
  unfold registered at h
  unfold actualIP
  cases hgs : serverList.get? guildId with
  | none => simp [hgs] at h
  | some gs =>
    simp only [hgs, Option.some_bind] at h
    simp [readAddress, h, JSValue.truthy, ip.property]

theorem actualIP_of_no_guild (serverList : ServerList) (guildId : GuildId)
    (serverIP : String) (h : serverList.get? guildId = none) :
    actualIP serverList guildId serverIP = .str serverIP := by
  unfold actualIP
  rw [h]

theorem actualIP_of_not_member (serverList : ServerList) (guildId : GuildId)
    (serverIP : String) (h : registered serverList guildId serverIP = none)
    (hmem : serverIP ∉ objectPrototypeMembers) :
    actualIP serverList guildId serverIP = .str serverIP := by
  unfold registered at h
  unfold actualIP
  cases hgs : serverList.get? guildId with
  | none => rfl
  | some gs =>
    simp only [hgs, Option.some_bind] at h
    simp [readAddress, h, hmem]

/-! ## C1: nickname resolution -/

/-- C1, as stated, fails: in the registry of the end-to-end scenario nothing is
registered under `("guild1", "constructor")`, yet `!status constructor` does not
resolve to the input: the read of line 145 finds the function inherited from
`Object.prototype`, which is truthy, and that function is the result. -/
theorem actualIP_inherited_counterexample :
    registered registryAlpha guild1 "constructor" = none ∧
      actualIP registryAlpha guild1 "constructor" = .inherited "constructor" ∧
      actualIP registryAlpha guild1 "constructor" ≠ .str "constructor" := by
  decide

/-- C1, amended: for every registry, every tenant id and every input string, if
the registry holds an address for (tenant, input) the result of nickname
resolution is that registered address; and when it holds none, the result is the
input string unchanged provided the input is not the name of a member of
`Object.prototype` or the tenant has no object in the registry. -/
theorem actualIP_spec (serverList : ServerList) (guildId : GuildId) (serverIP : String) :
    (∀ ip, registered serverList guildId serverIP = some ip →
        actualIP serverList guildId serverIP = .str ip.val) ∧
      (registered serverList guildId serverIP = none →
        (serverIP ∉ objectPrototypeMembers ∨ serverList.get? guildId = none) →
        actualIP serverList guildId serverIP = .str serverIP) := by
  refine ⟨fun ip h => actualIP_of_registered _ _ _ ip h, ?_⟩
  rintro h (hmem | hnone)
  · exact actualIP_of_not_member _ _ _ h hmem
  · exact actualIP_of_no_guild _ _ _ hnone

/-- Evaluation of `actualIP_spec` on the end-to-end registry: a registered
nickname resolves to its address, `"nonexistent"` is returned verbatim, and so
is `"constructor"` for a guild without registry object. -/
theorem actualIP_spec_witness :
    actualIP registryAlpha guild1 "alpha" = .str "play.example.com:25565" ∧
      actualIP registryAlpha guild1 "nonexistent" = .str "nonexistent" ∧
      actualIP registryAlpha guild2 "constructor" = .str "constructor" :=
  ⟨(actualIP_spec registryAlpha guild1 "alpha").1 exampleAddress (by decide),
    (actualIP_spec registryAlpha guild1 "nonexistent").2 (by decide) (Or.inl (by decide)),
    (actualIP_spec registryAlpha guild2 "constructor").2 (by decide) (Or.inr rfl)⟩

/-! ## C2: register, then resolve -/

/-- C2, as stated, fails for the nickname `__proto__`: the assignment of line 186
runs the setter inherited from `Object.prototype`, nothing is stored, and
resolving `__proto__` yields `Object.prototype` instead of the address. -/
theorem register_resolve_proto_counterexample :
    registered (handleAddServer Dict.empty guild1 "__proto__" exampleAddress) guild1 "__proto__"
        = none ∧
      actualIP (handleAddServer Dict.empty guild1 "__proto__" exampleAddress) guild1 "__proto__"
        = .inherited "__proto__" ∧
      actualIP (handleAddServer Dict.empty guild1 "__proto__" exampleAddress) guild1 "__proto__"
        ≠ .str exampleAddress.val := by
  decide

/-- C2, amended: for every registry, tenant id, address and nickname other than
`__proto__`, after the registration step of `handleAddServer`, resolving the
nickname for that tenant returns exactly the just-registered address, whatever
was registered under the nickname before. -/
theorem actualIP_handleAddServer (serverList : ServerList) (guildId : GuildId)
    (nickname : String) (ip : Address) (hname : nickname ≠ "__proto__") :
    actualIP (handleAddServer serverList guildId nickname ip) guildId nickname = .str ip.val :=
  actualIP_of_registered _ _ _ ip (registered_handleAddServer_self _ _ _ ip hname)

/-- Evaluation of `actualIP_handleAddServer`: re-registering `alpha` over its
earlier address. -/
theorem actualIP_handleAddServer_witness :
    registered registryAlpha guild1 "alpha" = some exampleAddress ∧
      actualIP (handleAddServer registryAlpha guild1 "alpha" otherAddress) guild1 "alpha"
        = .str "mc.example.org" :=
  ⟨by decide, actualIP_handleAddServer registryAlpha guild1 "alpha" otherAddress (by decide)⟩

/-! ## Store lemmas -/

/-- The object of the guild that `updatePlayerData` works on. -/
theorem updatePlayerData_cases (store : Store) (now : Int) (guildId : GuildId)
    (nickname : TargetName) (onlinePlayers : Nat) :
    ∃ guildData : Dict String Series,
      (store.playerData.get? guildId = some guildData ∨
        (store.playerData.get? guildId = none ∧ guildData = Dict.empty)) ∧
      ((∃ data, guildData.get? nickname.val = some data ∧
          updatePlayerData store now guildId nickname onlinePlayers =
            ⟨store.playerData.set guildId
                (guildData.set nickname.val (data.set (utcDay now) onlinePlayers)),
              store.memberData⟩) ∨
        (guildData.get? nickname.val = none ∧ nickname.val ∈ objectPrototypeMembers ∧
          updatePlayerData store now guildId nickname onlinePlayers =
            ⟨store.playerData.set guildId guildData,
              store.memberData.set nickname.val
                ((dateProps store (.inherited nickname.val)).set (utcDay now) onlinePlayers)⟩) ∨
        (guildData.get? nickname.val = none ∧ nickname.val ∉ objectPrototypeMembers ∧
          updatePlayerData store now guildId nickname onlinePlayers =
            ⟨store.playerData.set guildId
                (guildData.set nickname.val
                  ((Dict.empty : Series).set (utcDay now) onlinePlayers)),
              store.memberData⟩)) := by
  have key : ∀ guildData : Dict String Series,
      (match store.playerData.get? guildId with
        | none => Dict.empty
        | some guildData => guildData) = guildData →
      ((∃ data, guildData.get? nickname.val = some data ∧
          updatePlayerData store now guildId nickname onlinePlayers =
            ⟨store.playerData.set guildId
                (guildData.set nickname.val (data.set (utcDay now) onlinePlayers)),
              store.memberData⟩) ∨
        (guildData.get? nickname.val = none ∧ nickname.val ∈ objectPrototypeMembers ∧
          updatePlayerData store now guildId nickname onlinePlayers =
            ⟨store.playerData.set guildId guildData,
              store.memberData.set nickname.val
                ((dateProps store (.inherited nickname.val)).set (utcDay now) onlinePlayers)⟩) ∨
        (guildData.get? nickname.val = none ∧ nickname.val ∉ objectPrototypeMembers ∧
          updatePlayerData store now guildId nickname onlinePlayers =
            ⟨store.playerData.set guildId
                (guildData.set nickname.val
                  ((Dict.empty : Series).set (utcDay now) onlinePlayers)),
              store.memberData⟩)) := by
    intro guildData hgd
    unfold updatePlayerData
    simp only [hgd]
    cases hn : guildData.get? nickname.val with
    | some data => exact Or.inl ⟨data, rfl, rfl⟩
    | none =>
      by_cases hm : nickname.val ∈ objectPrototypeMembers
      · exact Or.inr (Or.inl ⟨rfl, hm, by simp only [if_pos hm]⟩)
      · exact Or.inr (Or.inr ⟨rfl, hm, by simp only [if_neg hm]⟩)
  cases hg : store.playerData.get? guildId with
  | none => exact ⟨Dict.empty, Or.inr ⟨rfl, rfl⟩, key _ (by rw [hg])⟩
  | some guildData => exact ⟨guildData, Or.inl rfl, key _ (by rw [hg])⟩

theorem playerData_updatePlayerData_of_ne (store : Store) (now : Int) (guildId : GuildId)
    (nickname : TargetName) (onlinePlayers : Nat) (guildId₂ : GuildId)
    (hg : guildId₂ ≠ guildId) :
    (updatePlayerData store now guildId nickname onlinePlayers).playerData.get? guildId₂
      = store.playerData.get? guildId₂ := by
  obtain ⟨gd, _, h⟩ := updatePlayerData_cases store now guildId nickname onlinePlayers
  rcases h with ⟨data, _, h⟩ | ⟨_, _, h⟩ | ⟨_, _, h⟩ <;>
    rw [h] <;> exact Dict.get?_set_of_ne _ _ _ _ hg

theorem memberData_updatePlayerData_of_not_member (store : Store) (now : Int)
    (guildId : GuildId) (nickname : TargetName) (onlinePlayers : Nat)
    (hord : nickname.val ∉ objectPrototypeMembers) :
    (updatePlayerData store now guildId nickname onlinePlayers).memberData
      = store.memberData := by
  obtain ⟨gd, _, h⟩ := updatePlayerData_cases store now guildId nickname onlinePlayers
  rcases h with ⟨data, _, h⟩ | ⟨_, hm, _⟩ | ⟨_, _, h⟩
  · rw [h]
  · exact absurd hm hord
  · rw [h]

theorem seriesOf_updatePlayerData_of_ne (store : Store) (now : Int) (guildId : GuildId)
    (nickname : TargetName) (onlinePlayers : Nat) (guildId₂ : GuildId) (nickname₂ : String)
    (h : ¬ (guildId₂ = guildId ∧ nickname₂ = nickname.val)) :
    seriesOf (updatePlayerData store now guildId nickname onlinePlayers) guildId₂ nickname₂
      = seriesOf store guildId₂ nickname₂ := by
  by_cases hg : guildId₂ = guildId
  · subst hg
    have hn : nickname₂ ≠ nickname.val := fun hn => h ⟨rfl, hn⟩
    obtain ⟨gd, hgd, hcases⟩ := updatePlayerData_cases store now guildId₂ nickname onlinePlayers
    have hold : seriesOf store guildId₂ nickname₂ = gd.get? nickname₂ := by
      unfold seriesOf
      rcases hgd with hgd | ⟨hgd, hempty⟩
      · rw [hgd]; rfl
      · rw [hgd, hempty]; rfl
    rw [hold]
    unfold seriesOf
    rcases hcases with ⟨data, _, h'⟩ | ⟨_, _, h'⟩ | ⟨_, _, h'⟩ <;> rw [h'] <;>
      simp [Dict.get?_set_self, Dict.get?_set_of_ne _ _ _ _ hn]
  · unfold seriesOf
    rw [playerData_updatePlayerData_of_ne _ _ _ _ _ _ hg]

theorem seriesOf_updatePlayerData_self (store : Store) (now : Int) (guildId : GuildId)
    (nickname : TargetName) (onlinePlayers : Nat)
    (hord : nickname.val ∉ objectPrototypeMembers) :
    seriesOf (updatePlayerData store now guildId nickname onlinePlayers) guildId nickname.val
      = some (((seriesOf store guildId nickname.val).getD Dict.empty).set (utcDay now)
          onlinePlayers) := by
  obtain ⟨gd, hgd, hcases⟩ := updatePlayerData_cases store now guildId nickname onlinePlayers
  have hold : seriesOf store guildId nickname.val = gd.get? nickname.val := by
    unfold seriesOf
    rcases hgd with hgd | ⟨hgd, hempty⟩
    · rw [hgd]; rfl
    · rw [hgd, hempty]; rfl
  rw [hold]
  unfold seriesOf
  rcases hcases with ⟨data, hd, h'⟩ | ⟨_, hm, _⟩ | ⟨hd, _, h'⟩
  · rw [h', hd]; simp [Dict.get?_set_self]
  · exact absurd hm hord
  · rw [h', hd]; simp [Dict.get?_set_self]

theorem readSeries_of_seriesOf (store : Store) (guildId : GuildId) (nickname : String)
    (data : Series) (h : seriesOf store guildId nickname = some data) :
    readSeries store guildId nickname = some (.own data) := by
  unfold seriesOf at h
  unfold readSeries
  cases hg : store.playerData.get? guildId with
  | none => simp [hg] at h
  | some gd =>
    simp only [hg, Option.some_bind] at h
    simp [seriesAt, h]

theorem readSeries_of_not_member (store : Store) (guildId : GuildId) (nickname : String)
    (hord : nickname ∉ objectPrototypeMembers) :
    readSeries store guildId nickname = (seriesOf store guildId nickname).map SeriesRef.own := by
  unfold seriesOf readSeries
  cases store.playerData.get? guildId with
  | none => rfl
  | some gd =>
    simp only [Option.some_bind, seriesAt]
    cases gd.get? nickname with
    | none => simp [hord]
    | some data => rfl

theorem sample_of_not_member (store : Store) (guildId : GuildId) (nickname : String)
    (date : Int) (hord : nickname ∉ objectPrototypeMembers) :
    sample store guildId nickname date
      = (seriesOf store guildId nickname).bind (fun data => data.get? date) := by
  unfold sample
  rw [readSeries_of_not_member _ _ _ hord]
  cases seriesOf store guildId nickname <;> rfl

theorem sample_of_seriesOf (store : Store) (guildId : GuildId) (nickname : String)
    (date : Int) (data : Series) (h : seriesOf store guildId nickname = some data) :
    sample store guildId nickname date = data.get? date := by
  unfold sample
  rw [readSeries_of_seriesOf _ _ _ data h]
  rfl

/-- After `updatePlayerData`, the read `playerData[guildId][nickname]` yields an
object whose property for today is the count, the other properties being those
of some earlier object. -/
theorem readSeries_updatePlayerData_self (store : Store) (now : Int) (guildId : GuildId)
    (nickname : TargetName) (onlinePlayers : Nat) :
    ∃ (ref : SeriesRef) (earlier : Series),
      readSeries (updatePlayerData store now guildId nickname onlinePlayers) guildId
          nickname.val = some ref ∧
        dateProps (updatePlayerData store now guildId nickname onlinePlayers) ref
          = earlier.set (utcDay now) onlinePlayers := by
  obtain ⟨gd, _, hcases⟩ := updatePlayerData_cases store now guildId nickname onlinePlayers
  rcases hcases with ⟨data, hd, h'⟩ | ⟨hd, hm, h'⟩ | ⟨hd, hm, h'⟩
  · refine ⟨.own (data.set (utcDay now) onlinePlayers), data, ?_, rfl⟩
    rw [h']
    simp [readSeries, seriesAt, Dict.get?_set_self]
  · refine ⟨.inherited nickname.val, dateProps store (.inherited nickname.val), ?_, ?_⟩
    · rw [h']
      simp [readSeries, seriesAt, Dict.get?_set_self, hd, hm]
    · rw [h']
      simp [dateProps, nickname.property, Dict.get?_set_self]
  · refine ⟨.own ((Dict.empty : Series).set (utcDay now) onlinePlayers), Dict.empty, ?_, rfl⟩
    rw [h']
    simp [readSeries, seriesAt, Dict.get?_set_self]

theorem sample_updatePlayerData_self (store : Store) (now : Int) (guildId : GuildId)
    (nickname : TargetName) (onlinePlayers : Nat) :
    sample (updatePlayerData store now guildId nickname onlinePlayers) guildId nickname.val
      (utcDay now) = some onlinePlayers := by
  obtain ⟨ref, earlier, href, hprops⟩ :=
    readSeries_updatePlayerData_self store now guildId nickname onlinePlayers
  unfold sample
  rw [href]
  simp only [Option.some_bind]
  rw [hprops]
  exact Dict.get?_set_self _ _ _

/-- A write leaves the sample of every other key whose nickname is not the name
of a member of `Object.prototype` as it was. -/
theorem sample_updatePlayerData_of_ne (store : Store) (now : Int) (guildId : GuildId)
    (nickname : TargetName) (onlinePlayers : Nat) (guildId₂ : GuildId) (nickname₂ : String)
    (date : Int) (hord : nickname₂ ∉ objectPrototypeMembers)
    (h : ¬ (guildId₂ = guildId ∧ nickname₂ = nickname.val ∧ date = utcDay now)) :
    sample (updatePlayerData store now guildId nickname onlinePlayers) guildId₂ nickname₂ date
      = sample store guildId₂ nickname₂ date := by
  rw [sample_of_not_member _ _ _ _ hord, sample_of_not_member _ _ _ _ hord]
  by_cases hgn : guildId₂ = guildId ∧ nickname₂ = nickname.val
  · obtain ⟨hg, hn⟩ := hgn
    subst hg; subst hn
    have hd : date ≠ utcDay now := fun hd => h ⟨rfl, rfl, hd⟩
    rw [seriesOf_updatePlayerData_self _ _ _ _ _ hord]
    simp only [Option.some_bind, Dict.get?_set_of_ne _ _ _ _ hd]
    cases seriesOf store guildId₂ nickname.val <;> simp [Dict.get?_empty]
  · rw [seriesOf_updatePlayerData_of_ne _ _ _ _ _ _ _ hgn]

/-- A write leaves the object read under a key of another guild as it was. -/
theorem readSeries_updatePlayerData_of_guild_ne (store : Store) (now : Int)
    (guildId : GuildId) (nickname : TargetName) (onlinePlayers : Nat) (guildId₂ : GuildId)
    (nickname₂ : String) (hg : guildId₂ ≠ guildId) :
    readSeries (updatePlayerData store now guildId nickname onlinePlayers) guildId₂ nickname₂
      = readSeries store guildId₂ nickname₂ := by
  unfold readSeries
  rw [playerData_updatePlayerData_of_ne _ _ _ _ _ _ hg]

theorem dateProps_updatePlayerData_of_not_member (store : Store) (now : Int)
    (guildId : GuildId) (nickname : TargetName) (onlinePlayers : Nat) (ref : SeriesRef)
    (hord : nickname.val ∉ objectPrototypeMembers) :
    dateProps (updatePlayerData store now guildId nickname onlinePlayers) ref
      = dateProps store ref := by
  cases ref with
  | own data => rfl
  | inherited member =>
    unfold dateProps
    rw [memberData_updatePlayerData_of_not_member _ _ _ _ _ hord]

theorem handleGraph_eq (store : Store) (now : Int) (guildId : GuildId) (nickname : String)
    (days : Int) :
    handleGraph store now guildId nickname days =
      match readSeries store guildId nickname with
      | none => .ok .noPlayerData
      | some data =>
        match graphLoop (dateProps store data) now days.toNat [] [] with
        | .error e => .error e
        | .ok (labels, playerCounts) => .ok (.chart labels playerCounts) := by
  unfold handleGraph readSeries
  cases store.playerData.get? guildId with
  | none => rfl
  | some gd => simp only [Option.some_bind]

/-! ## C4: `updatePlayerData` overwrites within a day -/

/-- C4: for every store, tenant, nickname of a target and counts `c1`, `c2`, two
calls of `updatePlayerData` for the same target on the same calendar date leave
exactly one sample for (tenant, nickname, that date), and its value is `c2`. -/
theorem updatePlayerData_overwrites (store : Store) (now₁ now₂ : Int)
    (guildId : GuildId) (nickname : TargetName) (c₁ c₂ : Nat)
    (hday : utcDay now₁ = utcDay now₂) :
    samplesOn
        (updatePlayerData (updatePlayerData store now₁ guildId nickname c₁)
          now₂ guildId nickname c₂)
        guildId nickname.val (utcDay now₁) = [c₂] ∧
      sample
        (updatePlayerData (updatePlayerData store now₁ guildId nickname c₁)
          now₂ guildId nickname c₂)
        guildId nickname.val (utcDay now₁) = some c₂ := by
  rw [hday]
  refine ⟨?_, sample_updatePlayerData_self _ _ _ _ _⟩
  obtain ⟨ref, earlier, href, hprops⟩ :=
    readSeries_updatePlayerData_self (updatePlayerData store now₁ guildId nickname c₁)
      now₂ guildId nickname c₂
  unfold samplesOn
  rw [href]
  simp only
  rw [hprops, filter_key_of_assocGet _ (Dict.nodup _) (utcDay now₂) c₂
    (Dict.get?_set_self _ _ _)]
  rfl

/-- Evaluation of `updatePlayerData_overwrites`: two polls five minutes apart on
one day, reporting 3 and then 9, of a target nicknamed `constructor`. -/
theorem updatePlayerData_overwrites_witness :
    utcDay 1700000000000 = utcDay 1700000300000 ∧
      samplesOn
        (updatePlayerData (updatePlayerData Store.empty 1700000000000 guild1 constructorName 3)
          1700000300000 guild1 constructorName 9)
        guild1 "constructor" (utcDay 1700000000000) = [9] ∧
      sample
        (updatePlayerData (updatePlayerData Store.empty 1700000000000 guild1 constructorName 3)
          1700000300000 guild1 constructorName 9)
        guild1 "constructor" (utcDay 1700000000000) = some 9 :=
  ⟨by decide,
    updatePlayerData_overwrites Store.empty 1700000000000 1700000300000 guild1
      constructorName 3 9 (by decide)⟩

/-! ## The window loop -/

theorem msPerDay_ne_zero : msPerDay ≠ 0 := by unfold msPerDay; norm_num

theorem utcDay_sub_days (now : Int) (i : Int) :
    utcDay (now - i * msPerDay) = utcDay now - i := by
  unfold utcDay
  have h := Int.add_mul_ediv_right now (-i) msPerDay_ne_zero
  rw [Int.neg_mul, ← Int.sub_eq_add_neg, ← Int.sub_eq_add_neg] at h
  exact h

theorem countOrZero_eq (data : Series) (dateString : Int) :
    countOrZero data dateString = (data.get? dateString).getD 0 := by
  unfold countOrZero
  cases data.get? dateString with
  | none => rfl
  | some c =>
    by_cases hc : c = 0
    · simp [hc]
    · simp [hc]

/-- Every instant between two valid instants of the loop is valid. -/
theorem validTime_between (now : Int) (i j : Nat) (hij : j ≤ i) (hnow : validTime now)
    (hfirst : validTime (now - (i : Int) * msPerDay)) :
    validTime (now - (j : Int) * msPerDay) := by
  unfold validTime at *
  have hms : (0 : Int) < msPerDay := by unfold msPerDay; norm_num
  have hj : (0 : Int) ≤ (j : Int) * msPerDay :=
    Int.mul_nonneg (Int.ofNat_nonneg j) hms.le
  have hle : (j : Int) * msPerDay ≤ (i : Int) * msPerDay := by
    have : (j : Int) ≤ (i : Int) := by exact_mod_cast hij
    exact Int.mul_le_mul_of_nonneg_right this hms.le
  constructor <;> omega

theorem graphLoop_ok (data : Series) (now : Int) :
    ∀ (k : Nat) (labels : List Int) (playerCounts : List Nat),
      (∀ j : Nat, j < k → validTime (now - (j : Int) * msPerDay)) →
      graphLoop data now k labels playerCounts =
        .ok (labels ++ windowDates (utcDay now) k,
          playerCounts ++ (windowDates (utcDay now) k).map (countOrZero data)) := by
  intro k
  induction k with
  | zero => intro labels playerCounts _; simp [graphLoop, windowDates]
  | succ i ih =>
    intro labels playerCounts hvalid
    have hi : validTime (now - (i : Int) * msPerDay) := hvalid i (Nat.lt_succ_self i)
    have hrest : ∀ j : Nat, j < i → validTime (now - (j : Int) * msPerDay) :=
      fun j hj => hvalid j (Nat.lt_succ_of_lt hj)
    simp only [graphLoop, toISODate, hi, if_true]
    rw [ih _ _ hrest, utcDay_sub_days]
    simp [windowDates]

theorem graphLoop_error (data : Series) (now : Int) (i : Nat) (labels : List Int)
    (playerCounts : List Nat) (h : ¬ validTime (now - (i : Int) * msPerDay)) :
    graphLoop data now (i + 1) labels playerCounts = .error .rangeError := by
  simp [graphLoop, toISODate, h]

theorem graphLoop_eq_of_ok (data : Series) (now : Int) :
    ∀ (k : Nat) (labels : List Int) (playerCounts : List Nat) (r : List Int × List Nat),
      graphLoop data now k labels playerCounts = .ok r →
      r = (labels ++ windowDates (utcDay now) k,
        playerCounts ++ (windowDates (utcDay now) k).map (countOrZero data)) := by
  intro k
  induction k with
  | zero =>
    intro labels playerCounts r h
    simp only [graphLoop, Except.ok.injEq] at h
    simp [windowDates, ← h]
  | succ i ih =>
    intro labels playerCounts r h
    by_cases hi : validTime (now - (i : Int) * msPerDay)
    · simp only [graphLoop, toISODate, hi, if_true] at h
      rw [ih _ _ r h, utcDay_sub_days]
      simp [windowDates]
    · rw [graphLoop_error data now i labels playerCounts hi] at h
      cases h

/-- The first day that holds a valid instant starts exactly at the least valid
time value, so an instant on the day of a valid instant is not below the range. -/
theorem lower_bound_of_utcDay_eq (t t₂ : Int) (ht : validTime t) (hday : utcDay t₂ = utcDay t) :
    -maxTimeValue ≤ t₂ := by
  unfold validTime at ht
  unfold utcDay msPerDay at hday
  unfold maxTimeValue at *
  omega

theorem length_windowDates (today : Int) (k : Nat) : (windowDates today k).length = k := by
  induction k with
  | zero => rfl
  | succ i ih => simp [windowDates, ih]

theorem chain_windowDates (today : Int) (k : Nat) :
    List.Chain' (fun a b => b = a + 1) (windowDates today k) := by
  induction k with
  | zero => simp [windowDates]
  | succ i ih =>
    cases i with
    | zero => simp [windowDates]
    | succ i =>
      rw [windowDates]
      rw [windowDates] at ih ⊢
      rw [List.chain'_cons]
      refine ⟨?_, ih⟩
      push_cast
      ring

theorem getLast?_windowDates (today : Int) (k : Nat) :
    (windowDates today (k + 1)).getLast? = some today := by
  induction k with
  | zero => simp [windowDates]
  | succ i ih =>
    rw [windowDates]
    rw [windowDates] at ih ⊢
    rw [List.getLast?_cons_cons]
    exact ih

theorem mem_windowDates (today : Int) (k : Nat) (d : Int) :
    d ∈ windowDates today k ↔ today - (k : Int) < d ∧ d ≤ today := by
  induction k with
  | zero =>
    simp only [windowDates, List.not_mem_nil, false_iff]
    push_cast
    omega
  | succ i ih =>
    simp only [windowDates, List.mem_cons, ih]
    push_cast
    omega

/-- Whenever `handleGraph` sends a chart, it is the window ending on the date of
`now`, with the sample that the code reads for each date, or 0. -/
theorem handleGraph_chart_eq (store : Store) (now : Int) (guildId : GuildId)
    (nickname : String) (days : Int) (labels : List Int) (playerCounts : List Nat)
    (h : handleGraph store now guildId nickname days = .ok (.chart labels playerCounts)) :
    labels = windowDates (utcDay now) days.toNat ∧
      playerCounts = labels.map (fun d => (sample store guildId nickname d).getD 0) := by
  rw [handleGraph_eq] at h
  cases href : readSeries store guildId nickname with
  | none => rw [href] at h; cases h
  | some ref =>
    rw [href] at h
    simp only at h
    cases hloop : graphLoop (dateProps store ref) now days.toNat [] [] with
    | error e => rw [hloop] at h; cases h
    | ok r =>
      rw [hloop] at h
      have hr := graphLoop_eq_of_ok (dateProps store ref) now days.toNat [] [] r hloop
      obtain ⟨l, c⟩ := r
      simp only [Except.ok.injEq, Reply.chart.injEq] at h
      simp only [List.nil_append, Prod.mk.injEq] at hr
      obtain ⟨hl, hc⟩ := hr
      obtain ⟨hl', hc'⟩ := h
      subst hl'; subst hc'
      refine ⟨hl, ?_⟩
      rw [hc, ← hl]
      apply List.map_congr_left
      intro d _
      rw [countOrZero_eq]
      simp [sample, href]

/-- The window that `handleGraph` builds when every instant of the loop is a valid
date: the `days` dates ending on the date of `now`, each with `data[date] || 0`. -/
theorem handleGraph_window (store : Store) (now : Int) (guildId : GuildId)
    (nickname : String) (days : Int) (data : Series)
    (hdata : seriesOf store guildId nickname = some data)
    (hnow : validTime now) (hfirst : validTime (now - (days - 1) * msPerDay)) :
    handleGraph store now guildId nickname days =
      .ok (.chart (windowDates (utcDay now) days.toNat)
        ((windowDates (utcDay now) days.toNat).map (fun d => (data.get? d).getD 0))) := by
  rw [handleGraph_eq, readSeries_of_seriesOf _ _ _ data hdata]
  have hvalid : ∀ j : Nat, j < days.toNat → validTime (now - (j : Int) * msPerDay) := by
    intro j hj
    have hpos : 0 < days := by
      by_contra hneg
      have : days.toNat = 0 := Int.toNat_eq_zero.mpr (not_lt.mp hneg)
      omega
    have hcast : ((days.toNat - 1 : Nat) : Int) = days - 1 := by
      have := Int.toNat_of_nonneg hpos.le
      omega
    refine validTime_between now (days.toNat - 1) j (by omega) hnow ?_
    rw [hcast]; exact hfirst
  simp only [dateProps, graphLoop_ok data now days.toNat [] [] hvalid, List.nil_append]
  congr 2
  apply List.map_congr_left
  intro d _
  exact countOrZero_eq data d

/-! ## C3: the window built by `handleGraph` -/

/-- C3, as stated, fails for a large window size: with the clock at
1700000000000 and `days = 200000000` the first instant of the loop is outside the
range of `Date`, `toISOString` throws, and no entry at all is produced. -/
theorem handleGraph_large_window_counterexample :
    validTime 1700000000000 ∧ (0 : Int) < 200000000 ∧
      (seriesOf storeAlpha7 guild1 "alpha").isSome = true ∧
      handleGraph storeAlpha7 1700000000000 guild1 "alpha" 200000000
        = .error .rangeError :=
  ⟨by decide, by decide, by decide, rfl⟩

/-- C3, amended: for every stored series, every valid current time `now` and
every positive window size `days` whose first instant
`now - (days - 1) * 86400000` is still a valid date, `handleGraph` produces
exactly `days` (label, count) entries; the labels are consecutive calendar dates
in ascending order, the last one is the date of `now`, and the count of each
date is the sample stored for it, or 0 when none is stored. -/
theorem handleGraph_window_spec (store : Store) (now : Int)
    (guildId : GuildId) (nickname : String) (days : Int) (data : Series)
    (hdata : seriesOf store guildId nickname = some data) (hdays : 0 < days)
    (hnow : validTime now) (hfirst : validTime (now - (days - 1) * msPerDay)) :
    ∃ labels playerCounts,
      handleGraph store now guildId nickname days = .ok (.chart labels playerCounts) ∧
      (labels.length : Int) = days ∧
      playerCounts.length = labels.length ∧
      List.Chain' (fun a b => b = a + 1) labels ∧
      labels.getLast? = some (utcDay now) ∧
      playerCounts = labels.map (fun d => (sample store guildId nickname d).getD 0) := by
  refine ⟨_, _, handleGraph_window store now guildId nickname days data hdata hnow hfirst,
    ?_, ?_, chain_windowDates _ _, ?_, ?_⟩
  · rw [length_windowDates]; exact Int.toNat_of_nonneg hdays.le
  · simp
  · obtain ⟨k, hk⟩ : ∃ k, days.toNat = k + 1 :=
      Nat.exists_eq_succ_of_ne_zero (by
        intro h0
        have := Int.toNat_of_nonneg hdays.le
        omega)
    rw [hk]; exact getLast?_windowDates _ _
  · apply List.map_congr_left
    intro d _
    rw [sample_of_seriesOf _ _ _ _ data hdata]

/-- Evaluation of `handleGraph_window_spec`: a window of 2 days computed the day
after the only sample. -/
theorem handleGraph_window_spec_witness :
    ∃ labels playerCounts,
      handleGraph storeAlpha7 1700086400000 guild1 "alpha" 2
        = .ok (.chart labels playerCounts) ∧
      (labels.length : Int) = 2 ∧
      playerCounts.length = labels.length ∧
      List.Chain' (fun a b => b = a + 1) labels ∧
      labels.getLast? = some (utcDay 1700086400000) ∧
      playerCounts = labels.map (fun d => (sample storeAlpha7 guild1 "alpha" d).getD 0) :=
  handleGraph_window_spec storeAlpha7 1700086400000 guild1 "alpha" 2
    ((Dict.empty : Series).set 19675 7) rfl (by decide) (by decide) (by decide)

/-! ## C8: non-positive window size -/

/-- C8, as stated, fails: for the target `("guild1", "alpha")`, which has data,
a window size of 0 or of -3 is not answered with "no data"; a chart of an empty
series is built and sent. -/
theorem handleGraph_nonpositive_counterexample :
    (seriesOf storeAlpha7 guild1 "alpha").isSome = true ∧
      handleGraph storeAlpha7 1700000000000 guild1 "alpha" 0 = .ok (.chart [] []) ∧
      handleGraph storeAlpha7 1700000000000 guild1 "alpha" (-3) = .ok (.chart [] []) ∧
      handleGraph storeAlpha7 1700000000000 guild1 "alpha" 0 ≠ .ok .noPlayerData :=
  ⟨by decide, rfl, rfl, by simp [show handleGraph storeAlpha7 1700000000000 guild1 "alpha" 0
      = .ok (.chart [] []) from rfl]⟩

/-- C8, amended: for a target that has data, a request with a non-positive
window size is not reported as "no data" or as invalid input: `handleGraph`
skips the loop, builds the chart of an empty series (no label, no count) and
sends it, without throwing. -/
theorem handleGraph_nonpositive (store : Store) (now : Int)
    (guildId : GuildId) (nickname : String) (days : Int)
    (hdata : (seriesOf store guildId nickname).isSome = true) (hdays : days ≤ 0) :
    handleGraph store now guildId nickname days = .ok (.chart [] []) := by
  rw [handleGraph_eq]
  cases hs : seriesOf store guildId nickname with
  | none => simp [hs] at hdata
  | some data =>
    rw [readSeries_of_seriesOf _ _ _ data hs]
    simp [Int.toNat_eq_zero.mpr hdays, graphLoop]

/-- Evaluation of `handleGraph_nonpositive` at a window size of -1. -/
theorem handleGraph_nonpositive_witness :
    (seriesOf storeAlpha7 guild1 "alpha").isSome = true ∧ (-1 : Int) ≤ 0 ∧
      handleGraph storeAlpha7 1700000000000 guild1 "alpha" (-1) = .ok (.chart [] []) :=
  ⟨by decide, by decide,
    handleGraph_nonpositive storeAlpha7 1700000000000 guild1 "alpha" (-1)
      (by decide) (by decide)⟩

/-! ## C6: no data for a target never recorded -/

theorem seriesOf_runUpdates_of_never (updates : List Update) (guildId : GuildId)
    (nickname : String)
    (hnever : ∀ u ∈ updates, ¬ (u.guildId = guildId ∧ u.nickname.val = nickname)) :
    ∀ store : Store,
      seriesOf (runUpdates updates store) guildId nickname = seriesOf store guildId nickname := by
  induction updates with
  | nil => intro store; rfl
  | cons u us ih =>
    intro store
    have hu : ¬ (guildId = u.guildId ∧ nickname = u.nickname.val) := fun h =>
      hnever u (List.mem_cons_self u us) ⟨h.1.symm, h.2.symm⟩
    have hus : ∀ u' ∈ us, ¬ (u'.guildId = guildId ∧ u'.nickname.val = nickname) :=
      fun u' hu' => hnever u' (List.mem_cons_of_mem u hu')
    show seriesOf (runUpdates us (updatePlayerData store u.now u.guildId u.nickname
      u.onlinePlayers)) guildId nickname = _
    rw [ih hus, seriesOf_updatePlayerData_of_ne _ _ _ _ _ _ _ hu]

theorem playerData_runUpdates_of_other_guilds (updates : List Update) (guildId : GuildId)
    (hnever : ∀ u ∈ updates, u.guildId ≠ guildId) :
    ∀ store : Store,
      (runUpdates updates store).playerData.get? guildId = store.playerData.get? guildId := by
  induction updates with
  | nil => intro store; rfl
  | cons u us ih =>
    intro store
    have hu : guildId ≠ u.guildId := fun h => hnever u (List.mem_cons_self u us) h.symm
    have hus : ∀ u' ∈ us, u'.guildId ≠ guildId :=
      fun u' hu' => hnever u' (List.mem_cons_of_mem u hu')
    show (runUpdates us (updatePlayerData store u.now u.guildId u.nickname
      u.onlinePlayers)).playerData.get? guildId = _
    rw [ih hus, playerData_updatePlayerData_of_ne _ _ _ _ _ _ hu]

/-- C6, as stated, fails: after a poll of `("guild1", "alpha")` nothing was ever
recorded for `("guild1", "constructor")`, yet `!graph constructor 2` does not get
the "no data" reply: the test of line 329 finds the function inherited from
`Object.prototype`, and a window of zeros is built and sent. -/
theorem handleGraph_inherited_counterexample :
    ¬ (guild1 = guild1 ∧ alpha.val = "constructor") ∧
      handleGraph (runUpdates [⟨1700000000000, guild1, alpha, 7⟩] Store.empty)
        1700000000000 guild1 "constructor" 2 = .ok (.chart [19674, 19675] [0, 0]) :=
  ⟨by decide, rfl⟩

/-- C6, amended: in every store reached from the empty store by a sequence of
`updatePlayerData` calls, for every tenant and nickname that none of the calls
recorded, and for every clock reading and window size, `handleGraph` replies
`noPlayerData` and builds no window, provided the nickname is not the name of a
member of `Object.prototype` or none of the calls was for that tenant. -/
theorem handleGraph_noPlayerData (updates : List Update) (now : Int)
    (guildId : GuildId) (nickname : String) (days : Int)
    (hnever : ∀ u ∈ updates, ¬ (u.guildId = guildId ∧ u.nickname.val = nickname))
    (hord : nickname ∉ objectPrototypeMembers ∨ ∀ u ∈ updates, u.guildId ≠ guildId) :
    handleGraph (runUpdates updates Store.empty) now guildId nickname days
      = .ok .noPlayerData := by
  rw [handleGraph_eq]
  rcases hord with hord | hguild
  · rw [readSeries_of_not_member _ _ _ hord,
      seriesOf_runUpdates_of_never updates guildId nickname hnever]
    rfl
  · unfold readSeries
    rw [playerData_runUpdates_of_other_guilds updates guildId hguild]
    rfl

/-- Evaluation of `handleGraph_noPlayerData`: `alpha` was recorded in the guild,
`beta` never was. -/
theorem handleGraph_noPlayerData_witness :
    handleGraph (runUpdates [⟨1700000000000, guild1, alpha, 7⟩] Store.empty)
      1700000000000 guild1 "beta" 3 = .ok .noPlayerData :=
  handleGraph_noPlayerData [⟨1700000000000, guild1, alpha, 7⟩] 1700000000000
    guild1 "beta" 3 (by decide) (Or.inl (by decide))

/-! ## C10: frame conditions -/

/-- C10, as stated, fails: `guild2` has data and no sample for `constructor`;
after `updatePlayerData` records 5 for `("guild1", "constructor")`, the count is
written on the function shared through `Object.prototype`, and both the sample
read under `("guild2", "constructor")` and the chart of `!graph constructor 1`
in `guild2` have changed. -/
theorem writes_frame_counterexample :
    guild2 ≠ guild1 ∧
      sample storeGamma7 guild2 "constructor" 19675 = none ∧
      sample (updatePlayerData storeGamma7 1700000000000 guild1 constructorName 5)
        guild2 "constructor" 19675 = some 5 ∧
      handleGraph storeGamma7 1700000000000 guild2 "constructor" 1
        = .ok (.chart [19675] [0]) ∧
      handleGraph (updatePlayerData storeGamma7 1700000000000 guild1 constructorName 5)
        1700000000000 guild2 "constructor" 1 = .ok (.chart [19675] [5]) :=
  ⟨by decide, by decide, by decide, rfl, rfl⟩

/-- C10, amended: `updatePlayerData` for `(guildId, nickname)` on the date of
`now` leaves unchanged the sample of every other (tenant, nickname, date) key
whose nickname is not the name of a member of `Object.prototype`; when the
written `nickname` is not such a name either, it also leaves unchanged every
sample of every other tenant and the reply of `handleGraph` for every other
tenant.  The registration step of `handleAddServer` for
`(guildId, registeredName)` leaves the address of every other (tenant, nickname)
key and the nickname resolution of every other tenant unchanged. -/
theorem writes_frame (store : Store) (serverList : ServerList) (now : Int)
    (guildId : GuildId) (nickname : TargetName) (registeredName : String) (ip : Address)
    (onlinePlayers : Nat) :
    (∀ (guildId₂ : GuildId) (nickname₂ : String) (date : Int),
        ¬ (guildId₂ = guildId ∧ nickname₂ = nickname.val ∧ date = utcDay now) →
        (nickname₂ ∉ objectPrototypeMembers ∨
          (guildId₂ ≠ guildId ∧ nickname.val ∉ objectPrototypeMembers)) →
        sample (updatePlayerData store now guildId nickname onlinePlayers)
          guildId₂ nickname₂ date = sample store guildId₂ nickname₂ date) ∧
      (∀ (guildId₂ : GuildId) (nickname₂ : String),
        ¬ (guildId₂ = guildId ∧ nickname₂ = registeredName) →
        registered (handleAddServer serverList guildId registeredName ip) guildId₂ nickname₂
          = registered serverList guildId₂ nickname₂) ∧
      (∀ (guildId₂ : GuildId) (serverIP : String), guildId₂ ≠ guildId →
        actualIP (handleAddServer serverList guildId registeredName ip) guildId₂ serverIP
          = actualIP serverList guildId₂ serverIP) ∧
      (nickname.val ∉ objectPrototypeMembers →
        ∀ (guildId₂ : GuildId) (nickname₂ : String) (now₂ days : Int), guildId₂ ≠ guildId →
          handleGraph (updatePlayerData store now guildId nickname onlinePlayers)
            now₂ guildId₂ nickname₂ days = handleGraph store now₂ guildId₂ nickname₂ days) := by
  refine ⟨?_, ?_, ?_, ?_⟩
  · intro guildId₂ nickname₂ date hkey hother
    rcases hother with hord₂ | ⟨hg, hord⟩
    · exact sample_updatePlayerData_of_ne _ _ _ _ _ _ _ _ hord₂ hkey
    · unfold sample
      rw [readSeries_updatePlayerData_of_guild_ne _ _ _ _ _ _ _ hg]
      cases readSeries store guildId₂ nickname₂ with
      | none => rfl
      | some ref =>
        simp only [Option.some_bind]
        rw [dateProps_updatePlayerData_of_not_member _ _ _ _ _ _ hord]
  · intro guildId₂ nickname₂ h
    exact registered_handleAddServer_of_ne _ _ _ _ _ _ h
  · intro guildId₂ serverIP hg
    unfold actualIP
    rw [get?_handleAddServer_of_ne _ _ _ _ _ hg]
  · intro hord guildId₂ nickname₂ now₂ days hg
    rw [handleGraph_eq, handleGraph_eq,
      readSeries_updatePlayerData_of_guild_ne _ _ _ _ _ _ _ hg]
    cases readSeries store guildId₂ nickname₂ with
    | none => rfl
    | some ref =>
      simp only
      rw [dateProps_updatePlayerData_of_not_member _ _ _ _ _ _ hord]

/-- Evaluation of `writes_frame`: a poll and a registration under `guild2` leave
the sample, the address, the resolution and the chart of `guild1` as they
were, also when `guild1` is asked about `constructor`. -/
theorem writes_frame_witness :
    sample (updatePlayerData storeAlpha7 1700000000000 guild2 alpha 40)
        guild1 "constructor" 19675 = sample storeAlpha7 guild1 "constructor" 19675 ∧
      registered (handleAddServer registryAlpha guild2 "alpha" otherAddress)
        guild1 "alpha" = registered registryAlpha guild1 "alpha" ∧
      actualIP (handleAddServer registryAlpha guild2 "alpha" otherAddress)
        guild1 "alpha" = actualIP registryAlpha guild1 "alpha" ∧
      handleGraph (updatePlayerData storeAlpha7 1700000000000 guild2 alpha 40)
        1700000000000 guild1 "alpha" 1
        = handleGraph storeAlpha7 1700000000000 guild1 "alpha" 1 :=
  ⟨(writes_frame storeAlpha7 registryAlpha 1700000000000 guild2 alpha "alpha"
      otherAddress 40).1 guild1 "constructor" 19675 (by decide)
      (Or.inr ⟨by decide, by decide⟩),
    (writes_frame storeAlpha7 registryAlpha 1700000000000 guild2 alpha "alpha"
      otherAddress 40).2.1 guild1 "alpha" (by decide),
    (writes_frame storeAlpha7 registryAlpha 1700000000000 guild2 alpha "alpha"
      otherAddress 40).2.2.1 guild1 "alpha" (by decide),
    (writes_frame storeAlpha7 registryAlpha 1700000000000 guild2 alpha "alpha"
      otherAddress 40).2.2.2 (by decide) guild1 "alpha" 1700000000000 1 (by decide)⟩

/-! ## The polling tick -/

theorem foldl_invariant {σ β : Type} (f : σ → β → σ) (P : σ → Prop) (l : List β)
    (h : ∀ s, ∀ b ∈ l, P s → P (f s b)) : ∀ s, P s → P (l.foldl f s) := by
  induction l with
  | nil => intro s hs; exact hs
  | cons b t ih =>
    intro s hs
    exact ih (fun s' b' hb' => h s' b' (List.mem_cons_of_mem b hb')) (f s b)
      (h s b (List.mem_cons_self b t) hs)

/-- Folding over the own properties of an object: the property established at
key `k` survives when the steps at the other keys preserve it. -/
theorem foldl_establish {σ κ α : Type} (f : σ → κ × α → σ) (P : σ → Prop) (k : κ) (v : α)
    (hset : ∀ s, P (f s (k, v))) (hpres : ∀ s (e : κ × α), e.1 ≠ k → P s → P (f s e)) :
    ∀ l : List (κ × α), (l.map Prod.fst).Nodup → (k, v) ∈ l → ∀ s, P (l.foldl f s) := by
  intro l
  induction l with
  | nil => intro _ hmem; simp at hmem
  | cons e t ih =>
    intro hnd hmem s
    simp only [List.map_cons, List.nodup_cons] at hnd
    rcases List.mem_cons.mp hmem with he | ht
    · subst he
      refine foldl_invariant f P t (fun s' b hb hs' => hpres s' b ?_ hs') _ (hset s)
      intro hbk
      exact hnd.1 (List.mem_map.mpr ⟨b, hb, hbk⟩)
    · exact ih hnd.2 ht (f s e)

theorem pollTarget_of_failure (env : TickEnv) (guildId : GuildId) (store : Store)
    (target : TargetName × Address) (hfail : env.status guildId target.1 target.2 = none) :
    pollTarget env guildId store target = store := by
  simp [pollTarget, hfail]

theorem sample_pollTarget_self (env : TickEnv) (guildId : GuildId) (nickname : TargetName)
    (ip : Address) (store : Store) (c : Nat) (hok : env.status guildId nickname ip = some c) :
    sample (pollTarget env guildId store (nickname, ip)) guildId nickname.val
      (utcDay (env.clock guildId nickname)) = some c := by
  simp [pollTarget, hok, sample_updatePlayerData_self]

theorem sample_pollTarget_of_ne (env : TickEnv) (guildId₂ : GuildId) (store : Store)
    (target : TargetName × Address) (guildId : GuildId) (nickname : TargetName) (date : Int)
    (hord : nickname.val ∉ objectPrototypeMembers)
    (h : ¬ (guildId = guildId₂ ∧ nickname = target.1)) :
    sample (pollTarget env guildId₂ store target) guildId nickname.val date
      = sample store guildId nickname.val date := by
  unfold pollTarget
  cases env.status guildId₂ target.1 target.2 with
  | none => rfl
  | some c =>
    exact sample_updatePlayerData_of_ne _ _ _ _ _ _ _ _ hord
      (fun h' => h ⟨h'.1, Subtype.ext h'.2.1⟩)

theorem sample_pollGuild_of_ne (env : TickEnv) (store : Store)
    (guild : GuildId × Dict TargetName Address) (guildId : GuildId) (nickname : TargetName)
    (date : Int) (v : Option Nat) (hord : nickname.val ∉ objectPrototypeMembers)
    (hg : guild.1 ≠ guildId) (h : sample store guildId nickname.val date = v) :
    sample (pollGuild env store guild) guildId nickname.val date = v := by
  unfold pollGuild
  refine foldl_invariant (pollTarget env guild.1)
    (fun s => sample s guildId nickname.val date = v) _ ?_ store h
  intro s target _ hs
  show sample (pollTarget env guild.1 s target) guildId nickname.val date = v
  rw [sample_pollTarget_of_ne _ _ _ _ _ _ _ hord (fun h' => hg h'.1.symm)]
  exact hs

theorem sample_pollGuild_self (env : TickEnv) (store : Store) (guildId : GuildId)
    (guildServers : Dict TargetName Address) (nickname : TargetName) (ip : Address) (c : Nat)
    (hord : nickname.val ∉ objectPrototypeMembers)
    (hreg : guildServers.get? nickname = some ip)
    (hok : env.status guildId nickname ip = some c) :
    sample (pollGuild env store (guildId, guildServers)) guildId nickname.val
      (utcDay (env.clock guildId nickname)) = some c := by
  unfold pollGuild
  refine foldl_establish (pollTarget env guildId)
    (fun s => sample s guildId nickname.val (utcDay (env.clock guildId nickname)) = some c)
    nickname ip ?_ ?_ guildServers.entries guildServers.nodup
    ((Dict.mem_entries_iff guildServers nickname ip).mpr hreg) store
  · intro s
    exact sample_pollTarget_self env guildId nickname ip s c hok
  · intro s target hne hs
    show sample (pollTarget env guildId s target) guildId nickname.val _ = some c
    rw [sample_pollTarget_of_ne _ _ _ _ _ _ _ hord (fun h' => hne h'.2.symm)]
    exact hs

/-! ## C5: failure isolation within a tick -/

/-- C5, as stated, fails: `guild1` and `guild2` each registered a target
nicknamed `constructor`; in one tick the query of the first reports 5 and the
query of the second reports 9.  Both counts are written on the function shared
through `Object.prototype`, so after the tick today's sample of the target of
`guild1` is 9, not its reported count. -/
theorem tick_shared_member_counterexample :
    registered registryConstructors guild1 "constructor" = some exampleAddress ∧
      envFiveNine.status guild1 constructorName exampleAddress = some 5 ∧
      sample (startPeriodicChecks envFiveNine registryConstructors Store.empty)
        guild1 "constructor" (utcDay (envFiveNine.clock guild1 constructorName)) = some 9 := by
  decide

/-- C5, amended: for every registry, every outcome of the status queries and
every store before the tick, after the tick each registered target whose
nickname is not the name of a member of `Object.prototype` and whose query
succeeded has, under the date at which it was recorded (today), the sample equal
to its reported online count, whatever the other queries of the tick did and
wherever they come in the iteration order. -/
theorem tick_records_success (env : TickEnv) (serverList : ServerList)
    (store : Store) (guildId : GuildId) (nickname : TargetName) (ip : Address) (c : Nat)
    (hord : nickname.val ∉ objectPrototypeMembers)
    (hreg : registered serverList guildId nickname.val = some ip)
    (hok : env.status guildId nickname ip = some c) :
    sample (startPeriodicChecks env serverList store) guildId nickname.val
      (utcDay (env.clock guildId nickname)) = some c := by
  unfold registered at hreg
  cases hgs : serverList.get? guildId with
  | none => simp [hgs] at hreg
  | some guildServers =>
    simp only [hgs, Option.some_bind, ownAddress_val] at hreg
    unfold startPeriodicChecks
    refine foldl_establish (pollGuild env)
      (fun s => sample s guildId nickname.val (utcDay (env.clock guildId nickname)) = some c)
      guildId guildServers ?_ ?_ serverList.entries serverList.nodup
      ((Dict.mem_entries_iff serverList guildId guildServers).mpr hgs) store
    · intro s
      exact sample_pollGuild_self env s guildId guildServers nickname ip c hord hreg hok
    · intro s guild hne hs
      exact sample_pollGuild_of_ne env s guild guildId nickname _ _ hord hne hs

/-- Evaluation of `tick_records_success`: `beta` is recorded although the query
of `alpha`, which comes first, and the query of `gamma` fail. -/
theorem tick_records_success_witness :
    envBetaOnly.status guild1 alpha exampleAddress = none ∧
      envBetaOnly.status guild2 gamma otherAddress = none ∧
      sample (startPeriodicChecks envBetaOnly registryThree Store.empty) guild1 "beta"
        (utcDay 1700000000000) = some 12 :=
  ⟨by decide, by decide,
    tick_records_success envBetaOnly registryThree Store.empty guild1 beta
      otherAddress 12 (by decide) (by decide) (by decide)⟩

/-! ## C9: where a sample comes from -/

theorem sample_pollTarget_origin (env : TickEnv) (guildId₂ : GuildId) (store : Store)
    (target : TargetName × Address) (guildId : GuildId) (nickname : TargetName) (date : Int)
    (v : Nat) (hord : nickname.val ∉ objectPrototypeMembers)
    (h : sample (pollTarget env guildId₂ store target) guildId nickname.val date = some v) :
    sample store guildId nickname.val date = some v ∨
      (guildId₂ = guildId ∧ target.1 = nickname ∧
        env.status guildId nickname target.2 = some v ∧
        utcDay (env.clock guildId nickname) = date) := by
  unfold pollTarget at h
  cases hst : env.status guildId₂ target.1 target.2 with
  | none => rw [hst] at h; exact Or.inl h
  | some c =>
    rw [hst] at h
    simp only at h
    by_cases hkey : guildId = guildId₂ ∧ nickname.val = target.1.val ∧
        date = utcDay (env.clock guildId₂ target.1)
    · obtain ⟨hg, hn, hd⟩ := hkey
      have hn' : target.1 = nickname := Subtype.ext hn.symm
      subst hg; subst hd
      rw [← hn'] at h ⊢
      rw [sample_updatePlayerData_self] at h
      have hcv : c = v := Option.some.inj h
      subst hcv
      exact Or.inr ⟨rfl, rfl, hst, rfl⟩
    · rw [sample_updatePlayerData_of_ne _ _ _ _ _ _ _ _ hord hkey] at h
      exact Or.inl h

theorem sample_pollTargets_origin (env : TickEnv) (guildId₂ : GuildId)
    (guildId : GuildId) (nickname : TargetName) (date : Int) (v : Nat)
    (hord : nickname.val ∉ objectPrototypeMembers) :
    ∀ (targets : List (TargetName × Address)) (store : Store),
      sample (targets.foldl (pollTarget env guildId₂) store) guildId nickname.val date
          = some v →
      sample store guildId nickname.val date = some v ∨
        (guildId₂ = guildId ∧ ∃ ip, (nickname, ip) ∈ targets ∧
          env.status guildId nickname ip = some v ∧
          utcDay (env.clock guildId nickname) = date) := by
  intro targets
  induction targets with
  | nil => intro store h; exact Or.inl h
  | cons target rest ih =>
    intro store h
    rcases ih (pollTarget env guildId₂ store target) h with h' | ⟨hg, ip, hmem, hst, hd⟩
    · rcases sample_pollTarget_origin env guildId₂ store target guildId nickname date v hord h'
        with h'' | ⟨hg, hn, hst, hd⟩
      · exact Or.inl h''
      · refine Or.inr ⟨hg, target.2, ?_, hst, hd⟩
        rw [← hn]
        exact List.mem_cons_self _ _
    · exact Or.inr ⟨hg, ip, List.mem_cons_of_mem _ hmem, hst, hd⟩

theorem sample_pollGuilds_origin (env : TickEnv) (guildId : GuildId) (nickname : TargetName)
    (date : Int) (v : Nat) (hord : nickname.val ∉ objectPrototypeMembers) :
    ∀ (guilds : List (GuildId × Dict TargetName Address)) (store : Store),
      sample (guilds.foldl (pollGuild env) store) guildId nickname.val date = some v →
      sample store guildId nickname.val date = some v ∨
        ∃ guildServers ip, (guildId, guildServers) ∈ guilds ∧
          (nickname, ip) ∈ guildServers.entries ∧
          env.status guildId nickname ip = some v ∧
          utcDay (env.clock guildId nickname) = date := by
  intro guilds
  induction guilds with
  | nil => intro store h; exact Or.inl h
  | cons guild rest ih =>
    intro store h
    rcases ih (pollGuild env store guild) h with h' | ⟨gs, ip, hmem, hn, hst, hd⟩
    · rcases sample_pollTargets_origin env guild.1 guildId nickname date v hord guild.2.entries
        store h' with h'' | ⟨hg, ip, hn, hst, hd⟩
      · exact Or.inl h''
      · refine Or.inr ⟨guild.2, ip, ?_, hn, hst, hd⟩
        rw [← hg]
        exact List.mem_cons_self _ _
    · exact Or.inr ⟨gs, ip, List.mem_cons_of_mem _ hmem, hn, hst, hd⟩

theorem sample_tick_origin (env : TickEnv) (serverList : ServerList) (store : Store)
    (guildId : GuildId) (nickname : TargetName) (date : Int) (v : Nat)
    (hord : nickname.val ∉ objectPrototypeMembers)
    (h : sample (startPeriodicChecks env serverList store) guildId nickname.val date
      = some v) :
    sample store guildId nickname.val date = some v ∨
      ∃ ip, registered serverList guildId nickname.val = some ip ∧
        env.status guildId nickname ip = some v ∧
        utcDay (env.clock guildId nickname) = date := by
  rcases sample_pollGuilds_origin env guildId nickname date v hord serverList.entries store h
    with h' | ⟨gs, ip, hg, hn, hst, hd⟩
  · exact Or.inl h'
  · refine Or.inr ⟨ip, ?_, hst, hd⟩
    have hget : serverList.get? guildId = some gs := (Dict.mem_entries_iff _ _ _).mp hg
    have hget' : gs.get? nickname = some ip := (Dict.mem_entries_iff _ _ _).mp hn
    simp [registered, hget, ownAddress_val, hget']

theorem sample_runTicks_origin (guildId : GuildId) (nickname : TargetName) (date : Int)
    (v : Nat) (hord : nickname.val ∉ objectPrototypeMembers) :
    ∀ (ticks : List Tick) (store : Store),
      sample (runTicks ticks store) guildId nickname.val date = some v →
      sample store guildId nickname.val date = some v ∨
        ∃ t ∈ ticks, ∃ ip, registered t.serverList guildId nickname.val = some ip ∧
          t.env.status guildId nickname ip = some v ∧
          utcDay (t.env.clock guildId nickname) = date := by
  intro ticks
  induction ticks with
  | nil => intro store h; exact Or.inl h
  | cons t rest ih =>
    intro store h
    rcases ih (startPeriodicChecks t.env t.serverList store) h with h' | ⟨t', ht', hex⟩
    · rcases sample_tick_origin t.env t.serverList store guildId nickname date v hord h'
        with h'' | hex
      · exact Or.inl h''
      · exact Or.inr ⟨t, List.mem_cons_self _ _, hex⟩
    · exact Or.inr ⟨t', List.mem_cons_of_mem _ ht', hex⟩

/-- C9, as stated, fails: `guild1` registered a target nicknamed `constructor`,
`guild2` only a target `gamma`.  After one tick in which every query reports 7,
the read under `("guild2", "constructor")` finds a sample for that day, although
nothing is registered, and so nothing was queried, under that key: the count of
`guild1` was written on the function shared through `Object.prototype`. -/
theorem sample_without_target_counterexample :
    registered registryConstructorGamma guild2 "constructor" = none ∧
      sample (runTicks [⟨registryConstructorGamma, envAllSeven⟩] Store.empty)
        guild2 "constructor" 19675 = some 7 := by
  decide

/-- C9, amended: in every store reached from the empty store by a sequence of
ticks, each with its own registry, clock and query outcomes, for a nickname that
is not the name of a member of `Object.prototype` a sample `v` exists for
(tenant, nickname, date) only if some tick of the sequence had, on that date, a
successful query (reporting `v`) for the target registered under
(tenant, nickname); and a failed query leaves the whole store as it was. -/
theorem store_invariant (ticks : List Tick) (guildId : GuildId) (nickname : TargetName)
    (date : Int) (v : Nat) (env : TickEnv) (store : Store) (guildId₂ : GuildId)
    (nickname₂ : TargetName) (ip₂ : Address) :
    (nickname.val ∉ objectPrototypeMembers →
        sample (runTicks ticks Store.empty) guildId nickname.val date = some v →
        ∃ t ∈ ticks, ∃ ip, registered t.serverList guildId nickname.val = some ip ∧
          t.env.status guildId nickname ip = some v ∧
          utcDay (t.env.clock guildId nickname) = date) ∧
      (env.status guildId₂ nickname₂ ip₂ = none →
        pollTarget env guildId₂ store (nickname₂, ip₂) = store) := by
  constructor
  · intro hord h
    rcases sample_runTicks_origin guildId nickname date v hord ticks Store.empty h with h' | hex
    · have hnone : sample Store.empty guildId nickname.val date = none := rfl
      rw [hnone] at h'
      cases h'
    · exact hex
  · intro hfail
    exact pollTarget_of_failure env guildId₂ store (nickname₂, ip₂) hfail

/-- Evaluation of `store_invariant`: the sample of `beta` after a failing tick
and a tick where only `beta` answers comes from that second tick, and the
failed query of `alpha` leaves the store untouched. -/
theorem store_invariant_witness :
    (∃ t ∈ [(⟨registryThree, envAllFail⟩ : Tick), ⟨registryThree, envBetaOnly⟩],
        ∃ ip, registered t.serverList guild1 "beta" = some ip ∧
          t.env.status guild1 beta ip = some 12 ∧
          utcDay (t.env.clock guild1 beta) = 19675) ∧
      pollTarget envBetaOnly guild1 storeAlpha7 (alpha, exampleAddress) = storeAlpha7 :=
  ⟨(store_invariant [⟨registryThree, envAllFail⟩, ⟨registryThree, envBetaOnly⟩]
      guild1 beta 19675 12 envBetaOnly storeAlpha7 guild1 alpha exampleAddress).1
      (by decide) (by decide),
    (store_invariant [] guild1 beta 19675 12 envBetaOnly storeAlpha7 guild1 alpha
      exampleAddress).2 (by decide)⟩

/-! ## C7: record, then aggregate -/

theorem mem_zip_map {α β : Type} (f : α → β) (a : α) (b : β) :
    ∀ l : List α, (a, b) ∈ List.zip l (l.map f) ↔ a ∈ l ∧ b = f a := by
  intro l
  induction l with
  | nil => simp
  | cons x t ih =>
    simp only [List.map_cons, List.zip_cons_cons, List.mem_cons, Prod.mk.injEq, ih]
    constructor
    · rintro (⟨hx, hb⟩ | ⟨ht, hb⟩)
      · subst hx; exact ⟨Or.inl rfl, hb⟩
      · exact ⟨Or.inr ht, hb⟩
    · rintro ⟨hx | ht, hb⟩
      · subst hx; exact Or.inl ⟨rfl, hb⟩
      · exact Or.inr ⟨ht, hb⟩

theorem tick_registryAlpha (env : TickEnv) (store : Store) :
    startPeriodicChecks env registryAlpha store
      = pollTarget env guild1 store (alpha, exampleAddress) := rfl

/-- C7: from the empty store with `("guild1", "alpha")` registered, after a tick
on day `D` whose query reports 7 players, the window of 1 day computed on day `D`
is `[(D, 7)]`; after a further tick on which the query fails, the window of
2 days computed on day `D + 1` is `[(D, 7), (D + 1, 0)]`.  In general, right
after `updatePlayerData` records `c` on the date of `now`, every window sent by
`handleGraph` for that target that covers that date holds `c`, and nothing
else, as the entry of that date.  Clock readings are valid dates. -/
theorem record_then_aggregate (env₁ env₂ : TickEnv) (t₁ t₂ : Int)
    (store : Store) (now : Int) (guildId : GuildId) (nickname : TargetName) (c : Nat)
    (now₂ days : Int) (labels : List Int) (playerCounts : List Nat)
    (hsucc : env₁.status guild1 alpha exampleAddress = some 7)
    (hfail : env₂.status guild1 alpha exampleAddress = none)
    (hday₁ : utcDay t₁ = utcDay (env₁.clock guild1 alpha)) (hvalid₁ : validTime t₁)
    (hday₂ : utcDay t₂ = utcDay (env₁.clock guild1 alpha) + 1) (hvalid₂ : validTime t₂)
    (hchart : handleGraph (updatePlayerData store now guildId nickname c) now₂
      guildId nickname.val days = .ok (.chart labels playerCounts))
    (hcover : utcDay now ∈ labels) :
    handleGraph (startPeriodicChecks env₁ registryAlpha Store.empty) t₁ guild1 "alpha" 1
        = .ok (.chart [utcDay (env₁.clock guild1 alpha)] [7]) ∧
      handleGraph
          (startPeriodicChecks env₂ registryAlpha
            (startPeriodicChecks env₁ registryAlpha Store.empty))
          t₂ guild1 "alpha" 2
        = .ok (.chart
            [utcDay (env₁.clock guild1 alpha), utcDay (env₁.clock guild1 alpha) + 1]
            [7, 0]) ∧
      (utcDay now, c) ∈ List.zip labels playerCounts ∧
      ∀ c₂, (utcDay now, c₂) ∈ List.zip labels playerCounts → c₂ = c := by
  have hpd₁ : startPeriodicChecks env₁ registryAlpha Store.empty
      = updatePlayerData Store.empty (env₁.clock guild1 alpha) guild1 alpha 7 := by
    rw [tick_registryAlpha]
    simp [pollTarget, hsucc]
  have hpd₂ : startPeriodicChecks env₂ registryAlpha
        (startPeriodicChecks env₁ registryAlpha Store.empty)
      = startPeriodicChecks env₁ registryAlpha Store.empty := by
    rw [tick_registryAlpha env₂]
    exact pollTarget_of_failure env₂ guild1 _ (alpha, exampleAddress) hfail
  have hseries : seriesOf (startPeriodicChecks env₁ registryAlpha Store.empty) guild1 "alpha"
      = some ((Dict.empty : Series).set (utcDay (env₁.clock guild1 alpha)) 7) := by
    rw [hpd₁]
    exact seriesOf_updatePlayerData_self Store.empty _ guild1 alpha 7 (by decide)
  have hfirst₂ : validTime (t₂ - (2 - 1) * msPerDay) := by
    have hlow : -maxTimeValue ≤ t₂ - (2 - 1) * msPerDay :=
      lower_bound_of_utcDay_eq t₁ _ hvalid₁ (by rw [utcDay_sub_days, hday₂, hday₁]; ring)
    have hms : (0 : Int) < msPerDay := by unfold msPerDay; norm_num
    have hup := hvalid₂.2
    exact ⟨hlow, by linarith⟩
  obtain ⟨_, hcounts⟩ := handleGraph_chart_eq _ now₂ guildId nickname.val days labels
    playerCounts hchart
  refine ⟨?_, ?_, ?_, ?_⟩
  · rw [handleGraph_window _ t₁ guild1 "alpha" 1 _ hseries hvalid₁ (by simpa using hvalid₁)]
    have h1 : (1 : Int).toNat = 1 := rfl
    simp [h1, windowDates, hday₁, Dict.get?_set_self]
  · rw [hpd₂, handleGraph_window _ t₂ guild1 "alpha" 2 _ hseries hvalid₂ hfirst₂]
    have h2 : (2 : Int).toNat = 2 := rfl
    have hne : utcDay (env₁.clock guild1 alpha) + 1 ≠ utcDay (env₁.clock guild1 alpha) := by
      omega
    simp [h2, windowDates, hday₂, Dict.get?_set_self, Dict.get?_set_of_ne _ _ _ _ hne,
      Dict.get?_empty]
  · rw [hcounts, mem_zip_map]
    exact ⟨hcover, by simp [sample_updatePlayerData_self]⟩
  · intro c₂ hc₂
    rw [hcounts, mem_zip_map] at hc₂
    simpa [sample_updatePlayerData_self] using hc₂.2

/-- Evaluation of `record_then_aggregate`: the poll at 1700000000000 (day 19675),
charts drawn the same day and the next day, and a window of 3 days drawn two days
after a sample of 5 of a target nicknamed `constructor`. -/
theorem record_then_aggregate_witness :
    handleGraph (startPeriodicChecks envAllSeven registryAlpha Store.empty) 1700000300000
        guild1 "alpha" 1 = .ok (.chart [19675] [7]) ∧
      handleGraph
          (startPeriodicChecks ⟨fun _ _ _ => none, fun _ _ => 1700086400000⟩ registryAlpha
            (startPeriodicChecks envAllSeven registryAlpha Store.empty))
          1700086400000 guild1 "alpha" 2 = .ok (.chart [19675, 19676] [7, 0]) ∧
      (utcDay 1700000000000, 5) ∈ List.zip [19675, 19676, 19677] [5, 0, 0] ∧
      ∀ c₂, (utcDay 1700000000000, c₂) ∈ List.zip [19675, 19676, 19677] [5, 0, 0] → c₂ = 5 :=
  record_then_aggregate envAllSeven ⟨fun _ _ _ => none, fun _ _ => 1700086400000⟩
    1700000300000 1700086400000 storeAlpha7 1700000000000 guild1 constructorName 5
    1700172800000 3 [19675, 19676, 19677] [5, 0, 0]
    (by decide) (by decide) (by decide) (by decide) (by decide) (by decide) rfl (by decide)

end MineMonitor
